import Mathlib

/-!
Verification of the Codex-Sales-app server core (`src/server/index.js`).

A shallow embedding of the data-transformation core of the repository:
`normalizeRecords`, `summarizeLocally`, `buildPrompt`, `formatContexts`
and the `POST /api/analyze` handler, together with the JavaScript value
semantics (truthiness, `||`, `Number(...)` coercion, string conversion)
those functions rely on.

JavaScript numbers are modelled as exact rationals extended with the
three special values `NaN`, `Infinity` and `-Infinity`; floating-point
rounding of a 64-bit double is not modelled (none of the verified
properties depends on it).  External collaborators (`JSON.parse`,
`JSON.stringify`, the OpenAI client, Supabase) are parameters of the
model, never reimplemented.
-/

/-- An exact rational, kept as an unnormalized numerator/denominator
pair so that every arithmetic operation reduces structurally (the
denominator is always positive for values this program builds; two
fractions denote the same number by cross-multiplication, see
`Frac.valEq`). -/
structure Frac where
  num : Int
  den : Nat
deriving DecidableEq, Repr

namespace Frac

/-- Value equality by cross-multiplication: `a/b = c/d ↔ a*d = c*b`. -/
def valEq (a b : Frac) : Bool := a.num * (b.den : Int) == b.num * (a.den : Int)

/-- Exact negation. -/
def neg (a : Frac) : Frac := ⟨-a.num, a.den⟩

/-- Exact addition. -/
def add (a b : Frac) : Frac := ⟨a.num * (b.den : Int) + b.num * (a.den : Int), a.den * b.den⟩

/-- Multiplication by an integer power of ten (for decimal exponents). -/
def mulPow10 (a : Frac) (e : Int) : Frac :=
  match e with
  | .ofNat k => ⟨a.num * ((10 : Nat) ^ k : Nat), a.den⟩
  | .negSucc k => ⟨a.num, a.den * (10 : Nat) ^ (k + 1)⟩

instance (n : Nat) : OfNat Frac n := ⟨⟨Int.ofNat n, 1⟩⟩

end Frac

/-- A JavaScript number: an exact rational or one of the IEEE special
values.  `Number.isNaN` is true exactly on `nan`.  (Floating-point
rounding of a 64-bit double is not modelled.) -/
inductive JSNum where
  | fin (q : Frac)
  | nan
  | inf
  | ninf
deriving DecidableEq, Repr

/-- A JavaScript value as it can appear in a JSON-carrying request body:
`undefined`, `null`, booleans, numbers, strings, arrays and plain
objects (ordered field lists; JSON objects have distinct keys). -/
inductive JSVal where
  | undefined
  | null
  | bool (b : Bool)
  | num (n : JSNum)
  | str (s : String)
  | arr (elems : List JSVal)
  | obj (fields : List (String × JSVal))
deriving Repr

namespace JSNum

/-- The predicate `Number.isNaN`. -/
def isNaN : JSNum → Bool
  | .nan => true
  | _ => false

/-- The predicate `Number.isFinite`: true exactly on ordinary (non-NaN, non-infinite)
numbers. -/
def isFinite : JSNum → Bool
  | .fin _ => true
  | _ => false

/-- Truthiness of a number: `0` and `NaN` are falsy, everything else
(including the infinities) is truthy. -/
def truthy : JSNum → Bool
  | .fin q => decide (q.num ≠ 0)
  | .nan => false
  | .inf => true
  | .ninf => true

/-- IEEE negation. -/
def neg : JSNum → JSNum
  | .fin q => .fin q.neg
  | .nan => .nan
  | .inf => .ninf
  | .ninf => .inf

/-- IEEE addition on the extended number line: `NaN` is absorbing and
`Infinity + -Infinity = NaN`. -/
def add : JSNum → JSNum → JSNum
  | .nan, _ => .nan
  | _, .nan => .nan
  | .inf, .ninf => .nan
  | .inf, _ => .inf
  | .ninf, .inf => .nan
  | .ninf, _ => .ninf
  | .fin _, .inf => .inf
  | .fin _, .ninf => .ninf
  | .fin a, .fin b => .fin (a.add b)

/-- IEEE subtraction, via `add` and `neg`. -/
def sub (a b : JSNum) : JSNum := add a (neg b)

/-- The test `x > 0` as JavaScript evaluates it in a sort comparator: false on
`NaN` (all comparisons with `NaN` are false). -/
def gtZero : JSNum → Bool
  | .fin q => decide (0 < q.num)
  | .inf => true
  | _ => false

/-- SameValueZero comparison of numbers (the one `Set` membership uses):
`NaN` equals `NaN`, and finite values compare by value, not by
representative. -/
def sameValueZero : JSNum → JSNum → Bool
  | .fin a, .fin b => a.valEq b
  | .nan, .nan => true
  | .inf, .inf => true
  | .ninf, .ninf => true
  | _, _ => false

end JSNum

namespace JSVal

/-- JavaScript truthiness: `undefined`, `null`, `false`, `0`, `NaN` and
`""` are falsy; all other values (including every array and object) are
truthy. -/
def truthy : JSVal → Bool
  | .undefined => false
  | .null => false
  | .bool b => b
  | .num n => n.truthy
  | .str s => decide (s ≠ "")
  | .arr _ => true
  | .obj _ => true

/-- Is the value `null` or `undefined` (the two values on which property
access throws a `TypeError`)? -/
def nullish : JSVal → Bool
  | .undefined => true
  | .null => true
  | _ => false

end JSVal

/-- JavaScript `a || b`: returns `a` when `a` is truthy, else `b`. -/
def jsOr (a b : JSVal) : JSVal := if a.truthy then a else b

/-- Property read `v.k` on a value already known not to be nullish:
object fields are looked up (JSON objects have distinct keys); reading
one of the data-field names used by this program from a primitive,
a string or an array yields `undefined`. -/
def jsField (v : JSVal) (k : String) : JSVal :=
  match v with
  | .obj fields => (fields.lookup k).getD .undefined
  | _ => .undefined

/-- Property read `v.k` as an effectful operation: on `null` and
`undefined` it throws a `TypeError`, otherwise it returns `jsField`. -/
def jsGetField (v : JSVal) (k : String) : Except String JSVal :=
  if v.nullish then .error "TypeError" else .ok (jsField v k)

mutual

/-- Structural equality of JavaScript values.  On the primitive values
this coincides with the SameValueZero comparison used by `Set`
(in particular `NaN` equals `NaN` there); object identity is not
modelled (the program only ever deduplicates strings). -/
def beqVal : JSVal → JSVal → Bool
  | .undefined, .undefined => true
  | .null, .null => true
  | .bool a, .bool b => a == b
  | .num a, .num b => a.sameValueZero b
  | .str a, .str b => a == b
  | .arr xs, .arr ys => beqValList xs ys
  | .obj xs, .obj ys => beqValFields xs ys
  | _, _ => false

/-- Elementwise equality of value lists. -/
def beqValList : List JSVal → List JSVal → Bool
  | [], [] => true
  | x :: xs, y :: ys => beqVal x y && beqValList xs ys
  | _, _ => false

/-- Elementwise equality of field lists. -/
def beqValFields : List (String × JSVal) → List (String × JSVal) → Bool
  | [], [] => true
  | (k, v) :: xs, (k', v') :: ys => k == k' && beqVal v v' && beqValFields xs ys
  | _, _ => false

end

/-! String / number conversions: `Number(...)`, `String(...)`,
and `Number.prototype.toLocaleString`. -/

/-- The whitespace characters stripped by `Number(...)` string
coercion (ASCII whitespace plus the common Unicode space characters;
the exotic Unicode space block is not needed by this program). -/
def isJsWhitespace (c : Char) : Bool :=
  c == ' ' || c == '\t' || c == '\n' || c == '\r' || c == '\x0b' ||
  c == '\x0c' || c == ' ' || c == '﻿'

/-- Strip leading and trailing whitespace from a character list. -/
def jsTrimChars (cs : List Char) : List Char :=
  ((cs.dropWhile isJsWhitespace).reverse.dropWhile isJsWhitespace).reverse

/-- The numeric value of a digit in the given base, if it is one
(decimal digits, then the two hexadecimal letter ranges by their code
point offsets; anything else, or a value at or above the base, is
rejected by the final bound check). -/
def digitVal (base : Nat) (c : Char) : Option Nat :=
  let d :=
    if c.isDigit then c.toNat - 48
    else if 'a' ≤ c ∧ c ≤ 'f' then c.toNat - 87
    else if 'A' ≤ c ∧ c ≤ 'F' then c.toNat - 55
    else base
  if d < base then some d else none

/-- Parse a non-empty run of digits in the given base. -/
def parseNatBase (base : Nat) (cs : List Char) : Option Nat :=
  if cs.isEmpty then none
  else cs.foldl (fun acc c => do
    let n ← acc
    let d ← digitVal base c
    pure (n * base + d)) (some 0)

/-- Split a character list at the first character satisfying `p`;
returns the part before it and, when found, the part after it. -/
def splitAtChar (p : Char → Bool) (cs : List Char) : List Char × Option (List Char) :=
  let (a, b) := cs.span (fun c => !(p c))
  match b with
  | [] => (a, none)
  | _ :: rest => (a, some rest)

/-- The value of a run of decimal digits. -/
def natOfDigits (cs : List Char) : Nat :=
  cs.foldl (fun n c => 10 * n + (c.toNat - 48)) 0

/-- Parse the mantissa of a decimal literal: digits, optionally with one
decimal point, at least one digit in total; the value is
`intPart + fracPart / 10 ^ fracLen` as an exact fraction. -/
def parseDecMantissa (cs : List Char) : Option Frac :=
  let (ip, fpOpt) := splitAtChar (· == '.') cs
  let fp := fpOpt.getD []
  if ip.all Char.isDigit && fp.all Char.isDigit && !(ip.isEmpty && fp.isEmpty) then
    some ⟨Int.ofNat (natOfDigits ip * (10 : Nat) ^ fp.length + natOfDigits fp),
          (10 : Nat) ^ fp.length⟩
  else none

/-- Parse a decimal exponent: an optional sign followed by at least one
digit. -/
def parseExponent (cs : List Char) : Option Int :=
  match cs with
  | '+' :: rest => (parseNatBase 10 rest).map (fun n => (n : Int))
  | '-' :: rest => (parseNatBase 10 rest).map (fun n => -(n : Int))
  | _ => (parseNatBase 10 cs).map (fun n => (n : Int))

/-- Evaluation of `Number(s)` for a string argument: trim whitespace, empty means `0`,
then a hexadecimal / octal / binary literal (no sign allowed), or an
optional sign followed by `Infinity` or a decimal literal with optional
exponent; anything else is `NaN`.  Values are exact rationals: the
rounding a 64-bit double would apply afterwards is not modelled. -/
def strToNum (s : String) : JSNum :=
  match jsTrimChars s.toList with
  | [] => .fin 0
  | '0' :: 'x' :: rest => match parseNatBase 16 rest with
    | some n => .fin ⟨Int.ofNat n, 1⟩ | none => .nan
  | '0' :: 'X' :: rest => match parseNatBase 16 rest with
    | some n => .fin ⟨Int.ofNat n, 1⟩ | none => .nan
  | '0' :: 'o' :: rest => match parseNatBase 8 rest with
    | some n => .fin ⟨Int.ofNat n, 1⟩ | none => .nan
  | '0' :: 'O' :: rest => match parseNatBase 8 rest with
    | some n => .fin ⟨Int.ofNat n, 1⟩ | none => .nan
  | '0' :: 'b' :: rest => match parseNatBase 2 rest with
    | some n => .fin ⟨Int.ofNat n, 1⟩ | none => .nan
  | '0' :: 'B' :: rest => match parseNatBase 2 rest with
    | some n => .fin ⟨Int.ofNat n, 1⟩ | none => .nan
  | cs =>
    let (isNeg, body) : Bool × List Char :=
      match cs with
      | '-' :: rest => (true, rest)
      | '+' :: rest => (false, rest)
      | _ => (false, cs)
    if body == "Infinity".toList then
      if isNeg then .ninf else .inf
    else
      let (m, eOpt) := splitAtChar (fun c => c == 'e' || c == 'E') body
      match parseDecMantissa m, eOpt with
      | some q, none => .fin (if isNeg then q.neg else q)
      | some q, some ecs =>
        match parseExponent ecs with
        | some ex => .fin (if isNeg then (q.mulPow10 ex).neg else q.mulPow10 ex)
        | none => .nan
      | none, _ => .nan

/-- Join strings with a separator (`Array.prototype.join`). -/
def joinSep (sep : String) : List String → String
  | [] => ""
  | [x] => x
  | x :: xs => x ++ sep ++ joinSep sep xs

/-- The exact decimal expansion of a rational whose reduced denominator
divides a power of ten, as produced for every number this program
manipulates.  (JavaScript prints doubles in shortest round-trip form and
switches to exponent notation for very large or very small magnitudes;
neither refinement is needed by the verified properties, and rationals
outside the decimal fragment fall back to a fraction rendering.) -/
def ratToDecimalString (q : Frac) : String :=
  let sgn := if q.num < 0 then "-" else ""
  let n := q.num.natAbs
  let d := q.den
  match (List.range 1101).find? (fun k => (10 : Nat) ^ k % d == 0) with
  | some k =>
    let scaled := n * (10 : Nat) ^ k / d
    let ip := scaled / (10 : Nat) ^ k
    let fracVal := scaled % (10 : Nat) ^ k
    if k == 0 || fracVal == 0 then sgn ++ toString ip
    else
      let ds := toString fracVal
      let padded := String.mk (List.replicate (k - ds.length) '0') ++ ds
      let trimmed := String.mk ((padded.toList.reverse.dropWhile (· == '0')).reverse)
      sgn ++ toString ip ++ "." ++ trimmed
  | none => sgn ++ toString n ++ "/" ++ toString d

/-- Rendering `String(n)` for a number. -/
def numToString : JSNum → String
  | .nan => "NaN"
  | .inf => "Infinity"
  | .ninf => "-Infinity"
  | .fin q => ratToDecimalString q

mutual

/-- The conversion `String(v)`: the string conversion used by template literals and by
property-key coercion.  Arrays stringify as the comma-join of their
elements with `null`/`undefined` rendered empty; plain objects as
`[object Object]`. -/
def jsToString : JSVal → String
  | .undefined => "undefined"
  | .null => "null"
  | .bool b => if b then "true" else "false"
  | .num n => numToString n
  | .str s => s
  | .arr elems => arrJoinComma elems
  | .obj _ => "[object Object]"

/-- The join of `Array.prototype.toString`: elements joined with `","`, nullish
elements rendered as the empty string. -/
def arrJoinComma : List JSVal → String
  | [] => ""
  | [x] => (match x with
    | .undefined => ""
    | .null => ""
    | v => jsToString v)
  | x :: xs => (match x with
    | .undefined => ""
    | .null => ""
    | v => jsToString v) ++ "," ++ arrJoinComma xs

end

/-- The coercion `Number(v)`: the numeric coercion applied to the amount-bearing
fields.  Arrays coerce through their string form (`[] → 0`,
`[x] → Number(String(x))`, longer arrays → `NaN`); plain objects
coerce to `NaN`. -/
def jsToNumber : JSVal → JSNum
  | .undefined => .nan
  | .null => .fin 0
  | .bool b => if b then .fin 1 else .fin 0
  | .num n => n
  | .str s => strToNum s
  | .arr elems => strToNum (jsToString (.arr elems))
  | .obj _ => .nan

/-- Split a digit string into groups of three from the right. -/
def chunksOf3 : List Char → List (List Char)
  | [] => []
  | [a] => [[a]]
  | [a, b] => [[a, b]]
  | [a, b, c] => [[a, b, c]]
  | a :: b :: c :: rest => [a, b, c] :: chunksOf3 rest

/-- Insert thousands separators into a digit string. -/
def groupThousands (s : String) : String :=
  joinSep "," (((chunksOf3 s.toList.reverse).map (fun cs => String.mk cs.reverse)).reverse)

/-- Rendering of `n.toLocaleString()` under the default en-US locale: thousands
separators in the integer part, the fraction rounded half-away-from-zero
to at most three digits, `NaN` and the infinities rendered as `NaN`,
`∞` and `-∞`. -/
def toLocaleJS : JSNum → String
  | .nan => "NaN"
  | .inf => "∞"
  | .ninf => "-∞"
  | .fin q =>
    let sgn := if q.num < 0 then "-" else ""
    let n := q.num.natAbs
    let d := q.den
    let ip := n / d
    let rem := n % d
    let r := (2 * rem * 1000 + d) / (2 * d)
    let ip2 := if r == 1000 then ip + 1 else ip
    let r2 := if r == 1000 then 0 else r
    let fracStr :=
      if r2 == 0 then ""
      else
        let ds := toString r2
        let padded := String.mk (List.replicate (3 - ds.length) '0') ++ ds
        "." ++ String.mk ((padded.toList.reverse.dropWhile (· == '0')).reverse)
    sgn ++ groupThousands (toString ip2) ++ fracStr

/-! The Record Normalizer (`normalizeRecords`, index.js lines 49-83).
`JSON.parse` and `JSON.stringify` are external builtins and enter the
model as the `parse` / `stringify` parameters: `parse s = none` models a
`JSON.parse` failure (the `catch` branch), `parse s = some v` a
successful parse producing `v`. -/

/-- A canonical sales record.  The textual fields hold whatever value
the `||`-alias chain produced (a string for JSON-typical inputs, but
the code never forces that), the amount the result of the `Number(...)`
coercion. -/
structure SalesRecord where
  customer : JSVal
  brand : JSVal
  season : JSVal
  stage : JSVal
  amount : JSNum
  notes : JSVal
deriving Repr

/-- The result shape `{ raw, records }` of `normalizeRecords`. -/
structure NormResult where
  raw : String
  records : List SalesRecord
deriving Repr

/-- The element-to-record mapping (the arrow function at index.js lines
71-78).  Reading a property of a nullish element throws a `TypeError`;
otherwise each field is the `||`-chain of its aliases and `amount` is
the `Number(...)` coercion of its alias chain (defaulting to `0`). -/
def recordOf (item : JSVal) : Except String SalesRecord :=
  if item.nullish then .error "TypeError"
  else .ok {
    customer := jsOr (jsField item "customer") (jsOr (jsField item "account") (.str "Unknown Customer")),
    brand := jsOr (jsField item "brand") (jsOr (jsField item "category") (.str "Unknown Brand")),
    season := jsOr (jsField item "season") (jsOr (jsField item "quarter")
      (jsOr (jsField item "period") (.str "Unspecified"))),
    stage := jsOr (jsField item "stage") (jsOr (jsField item "pipelineStage") (.str "unspecified")),
    amount := jsToNumber (jsOr (jsField item "amount") (jsOr (jsField item "value")
      (jsOr (jsField item "revenue") (jsOr (jsField item "total") (.num (.fin 0)))))),
    notes := jsOr (jsField item "notes") (jsOr (jsField item "comment") (.str "")) }

/-- The `.map(...)` pass over the parsed list: records are built left to
right and the first `TypeError` aborts the whole call, exactly as a
thrown exception does in `Array.prototype.map`. -/
def recordsOfItems : List JSVal → Except String (List SalesRecord)
  | [] => .ok []
  | item :: items =>
    match recordOf item with
    | .error e => .error e
    | .ok r =>
      match recordsOfItems items with
      | .error e => .error e
      | .ok rs => .ok (r :: rs)

/-- The `parsed` value of `normalizeRecords` for truthy input: a string
is handed to `JSON.parse` with `[]` on failure, an array is taken as is,
a plain object is wrapped into a one-element list, and any other
primitive leaves `parsed` at its initial `[]`. -/
def parsedOf (parse : String → Option JSVal) (data : JSVal) : JSVal :=
  match data with
  | .str s => (parse s).getD (.arr [])
  | .arr elems => .arr elems
  | .obj fields => .arr [.obj fields]
  | _ => .arr []

/-- The `raw` text of `normalizeRecords` for truthy input: a string is
kept verbatim, arrays and objects are pretty-printed by the external
`JSON.stringify`, and any other primitive leaves `raw` at `''`. -/
def rawOf (stringify : JSVal → String) (data : JSVal) : String :=
  match data with
  | .str s => s
  | .arr elems => stringify (.arr elems)
  | .obj fields => stringify (.obj fields)
  | _ => ""

/-- The list of elements the record mapping will run over: empty for
falsy input (the early return) and for a non-array `parsed` value. -/
def parsedElems (parse : String → Option JSVal) (data : JSVal) : List JSVal :=
  if data.truthy = false then []
  else match parsedOf parse data with
    | .arr elems => elems
    | _ => []

/-- The function `normalizeRecords(data)` (index.js lines 49-83): falsy
input short-circuits to `{ raw: '', records: [] }`; otherwise the parsed
list is mapped through `recordOf` and filtered by
`!Number.isNaN(r.amount)`; a non-array `parsed` yields no records. -/
def normalizeRecords (parse : String → Option JSVal) (stringify : JSVal → String)
    (data : JSVal) : Except String NormResult :=
  if data.truthy = false then .ok ⟨"", []⟩
  else
    let raw := rawOf stringify data
    match parsedOf parse data with
    | .arr items =>
      match recordsOfItems items with
      | .error e => .error e
      | .ok rs => .ok ⟨raw, rs.filter (fun r => !(r.amount.isNaN))⟩
    | _ => .ok ⟨raw, []⟩

/-- The record an input element contributes to the canonical list: its
mapped record when the mapping does not throw and the coerced amount is
not `NaN`, and nothing otherwise. -/
def keptRecord (item : JSVal) : Option SalesRecord :=
  match recordOf item with
  | .ok r => if r.amount.isNaN then none else some r
  | .error _ => none

/-! The Local Summarizer (`summarizeLocally`, index.js lines 85-126). -/

/-- JavaScript `n || 0` on a number (used for `r.amount || 0` and
`acc[k] || 0`): falsy numbers (`0` and `NaN`) are replaced by `0`. -/
def jsNumOrZero (n : JSNum) : JSNum := if n.truthy then n else .fin 0

/-- Assignment `acc[k] = v` on an ordered string-keyed map: an existing
key keeps its position and gets the new value, a new key is appended
(JavaScript object insertion order). -/
def setKey : List (String × JSNum) → String → JSNum → List (String × JSNum)
  | [], k, v => [(k, v)]
  | (k0, v0) :: rest, k, v =>
    if k0 == k then (k0, v) :: rest else (k0, v0) :: setKey rest k v

/-- One step of the `groupBy` reducer: `acc[k] = (acc[k] || 0) + amt`.
The accumulator is modelled as an own-key map: a first read of a group
key that names an inherited `Object.prototype` member (a record whose
customer/brand/season stringifies to `"toString"`, `"__proto__"`, ...)
would in real JS see the inherited value (turning the sum into string
concatenation, or swallowing the assignment for `"__proto__"`); that
corner is not modelled, and no verified statement below evaluates
`summarizeLocally` on such field values — the concrete statements use
ordinary names, and the remaining ones rely only on the summary being a
non-empty string beginning with the fixed notice. -/
def groupAdd (acc : List (String × JSNum)) (k : String) (amt : JSNum) :
    List (String × JSNum) :=
  let prev := match acc.lookup k with
    | some v => jsNumOrZero v
    | none => .fin 0
  setKey acc k (JSNum.add prev amt)

/-- Comparator order for `(a, b) => b[1] - a[1]`: `a` may stay before
`b` when the comparator result is not positive (`NaN` comparator values
count as zero, i.e. equal). -/
def entryLe (a b : String × JSNum) : Bool := !(JSNum.gtZero (JSNum.sub b.2 a.2))

/-- Stable insertion of an element that originally preceded every
element of the (already sorted) list: it moves past `y` only when `y`
must come strictly before it. -/
def insertEntry (x : String × JSNum) : List (String × JSNum) → List (String × JSNum)
  | [] => [x]
  | y :: ys =>
    if entryLe y x && !(entryLe x y) then y :: insertEntry x ys else x :: y :: ys

/-- The stable sort `Object.entries(obj).sort((a, b) => b[1] - a[1])`:
summed amounts descending, ties kept in insertion order
(`Array.prototype.sort` is stable). -/
def sortEntries (l : List (String × JSNum)) : List (String × JSNum) :=
  l.foldr insertEntry []

/-- The builtin `Object.entries`: fields of an object in insertion
order, index/character pairs for a string, index/element pairs for an
array, and nothing for other primitives. -/
def jsEntries : JSVal → List (String × JSVal)
  | .obj fields => fields
  | .str s => s.toList.enum.map (fun ic => (toString ic.1, JSVal.str (String.mk [ic.2])))
  | .arr elems => elems.enum.map (fun iv => (toString iv.1, iv.2))
  | _ => []

/-- The rendered `"key: value"` list of applied (truthy-valued) filters,
joined with the given separator (`", "` in `summarizeLocally`, `"; "` in
`buildPrompt`). -/
def filterSummaryStr (sep : String) (filters : JSVal) : String :=
  joinSep sep (((jsEntries (jsOr filters (.obj []))).filter (fun kv => kv.2.truthy)).map
    (fun kv => kv.1 ++ ": " ++ jsToString kv.2))

/-- The function `summarizeLocally(records, filters)` (index.js lines
85-126): the fixed sentence for an empty record list, otherwise the
space-join of the non-empty parts (notice, filter line, total, and the
top-3 lines per grouping). -/
def summarizeLocally (records : List SalesRecord) (filters : JSVal) : String :=
  if records.length == 0 then
    "No structured sales records were provided to summarize."
  else
    let total := records.foldl (fun sum r => JSNum.add sum (jsNumOrZero r.amount)) (.fin 0)
    let groupBy := fun (sel : SalesRecord → JSVal) =>
      records.foldl (fun acc r =>
        groupAdd acc (jsToString (jsOr (sel r) (.str "Unspecified"))) (jsNumOrZero r.amount)) []
    let byCustomer := groupBy (fun r => r.customer)
    let byBrand := groupBy (fun r => r.brand)
    let bySeason := groupBy (fun r => r.season)
    let top := fun (entries : List (String × JSNum)) =>
      joinSep "; " (((sortEntries entries).take 3).map
        (fun kv => kv.1 ++ ": $" ++ toLocaleJS kv.2))
    let filterSummary := filterSummaryStr ", " filters
    joinSep " " (([
      "AI provider is not configured. Showing a quick local summary instead.",
      if filterSummary == "" then "No filters applied."
        else "Applied filters -> " ++ filterSummary ++ ".",
      "Total pipeline value: $" ++ toLocaleJS total ++ ".",
      if byCustomer.length == 0 then "" else "Top customers: " ++ top byCustomer ++ ".",
      if byBrand.length == 0 then "" else "Top brands: " ++ top byBrand ++ ".",
      if bySeason.length == 0 then "" else "Top seasons/periods: " ++ top bySeason ++ "."
    ] : List String).filter (fun s => !(s == "")))

/-! The Prompt Builder (`buildPrompt`, index.js lines 128-151). -/

/-- The fixed focus mapping keyed by analysis type. -/
def focusList : List (String × String) := [
  ("trends", "Identify demand trends, seasonality, and drivers across customers and brands."),
  ("pipeline", "Predict pipeline milestones, risks, and likely close timelines with confidence levels."),
  ("communications", "Draft succinct client-ready communication bullets and recommendations based on the data.")]

/-- The prototype chain behind the `focus` object literal: a property
read that misses the literal's own three keys continues into
`Object.prototype` and finds its members (all truthy functions, plus
the `__proto__` accessor yielding `Object.prototype` itself).  The
prompt template interpolates the selected value immediately, so the
model carries each inherited member directly as its interpolated text
(V8's rendering, as under Node; the source text of a native function is
engine-dependent, but every verified statement relies only on the value
being truthy and its rendering differing from the fallback sentence). -/
def objectProtoMembers : List (String × String) := [
  ("constructor", "function Object() \x7b [native code] \x7d"),
  ("hasOwnProperty", "function hasOwnProperty() \x7b [native code] \x7d"),
  ("isPrototypeOf", "function isPrototypeOf() \x7b [native code] \x7d"),
  ("propertyIsEnumerable", "function propertyIsEnumerable() \x7b [native code] \x7d"),
  ("toLocaleString", "function toLocaleString() \x7b [native code] \x7d"),
  ("toString", "function toString() \x7b [native code] \x7d"),
  ("valueOf", "function valueOf() \x7b [native code] \x7d"),
  ("__defineGetter__", "function __defineGetter__() \x7b [native code] \x7d"),
  ("__defineSetter__", "function __defineSetter__() \x7b [native code] \x7d"),
  ("__lookupGetter__", "function __lookupGetter__() \x7b [native code] \x7d"),
  ("__lookupSetter__", "function __lookupSetter__() \x7b [native code] \x7d"),
  ("__proto__", "[object Object]")]

/-- The selected focus sentence `focus[analysisType] || 'General sales
insights.'`; the analysis type is coerced to a property key by
`String(...)`, the read checks the literal's own keys first and then
the `Object.prototype` members it inherits; only a miss of both (the
read yields `undefined`, here the empty sentinel) makes the `||` fall
back to the generic sentence. -/
def focusFor (analysisType : JSVal) : String :=
  let key := jsToString analysisType
  let v := match focusList.lookup key with
    | some f => f
    | none => (objectProtoMembers.lookup key).getD ""
  if v == "" then "General sales insights." else v

/-- The function `buildPrompt({ rawSalesText, analysisType, filters })`
(index.js lines 128-151).  The template interpolates only the filter
summary and the focus sentence; `rawSalesText` is received but not used
by the template (it is appended to the user message elsewhere). -/
def buildPrompt (rawSalesText : String) (analysisType : JSVal) (filters : JSVal) : String :=
  let fs := filterSummaryStr "; " filters
  "You are a senior sales operations analyst. Use the sales data below to summarize insights.\n\nContext filters: "
    ++ (if fs == "" then "none provided" else fs)
    ++ "\nRequired focuses: " ++ focusFor analysisType
    ++ "\n\nDeliver three sections:\n1) Trend Highlights (bullets)\n2) Pipeline Outlook (probable milestones, risks, next best actions)\n3) Draft Communications (short, actionable notes for stakeholders)\n\nUse concise bullets and include numeric references when available. If data is sparse, state assumptions."

/-! The Context Formatter (`formatContexts`, index.js lines 191-198). -/

/-- Iterative construction of `Array.from(new Set(list))`: keep the
first occurrence of each value (SameValueZero comparison via `beqVal`),
drop later duplicates. -/
def dedupValAux (seen : List JSVal) : List JSVal → List JSVal
  | [] => []
  | x :: xs =>
    if seen.any (fun y => beqVal y x) then dedupValAux seen xs
    else x :: dedupValAux (x :: seen) xs

/-- The helper `unique(list)` of `formatContexts`:
`Array.from(new Set(list.filter(Boolean)))`. -/
def jsUnique (l : List JSVal) : List JSVal := dedupValAux [] (l.filter JSVal.truthy)

/-- One projection `records.map((r) => r.k)`: like the `.map` in
`normalizeRecords`, a nullish row throws. -/
def mapFieldList (k : String) : List JSVal → Except String (List JSVal)
  | [] => .ok []
  | r :: rs =>
    match jsGetField r k with
    | .error e => .error e
    | .ok v =>
      match mapFieldList k rs with
      | .error e => .error e
      | .ok vs => .ok (v :: vs)

/-- The `{ customers, brands, seasons }` suggestion sets. -/
structure ContextSet where
  customers : List JSVal
  brands : List JSVal
  seasons : List JSVal
deriving Repr

/-- The function `formatContexts(records)` (index.js lines 191-198):
each of the three fields is projected over the rows and deduplicated
independently. -/
def formatContexts (records : List JSVal) : Except String ContextSet :=
  match mapFieldList "customer" records with
  | .error e => .error e
  | .ok cs =>
    match mapFieldList "brand" records with
    | .error e => .error e
    | .ok bs =>
      match mapFieldList "season" records with
      | .error e => .error e
      | .ok ss => .ok ⟨jsUnique cs, jsUnique bs, jsUnique ss⟩

/-! The `POST /api/analyze` handler (index.js lines 235-258),
specialized to the configuration in which no OpenAI client exists
(`openaiClient === null`); the AI-configured branch (lines 260-281)
only wraps the external model call and is not needed by the verified
properties.  Audit logging is modelled as the list of `logAnalysis`
invocations the handler performs; the actual datastore insert inside
`logAnalysis` is best-effort and external. -/

/-- A response as the handler sends it: HTTP status plus the `error` /
`data` JSON fields that appear in the 400 and 503 responses. -/
structure HttpResponse where
  status : Nat
  error : Option String
  data : Option String
deriving Repr

/-- One `logAnalysis` invocation, with the truncation it applies:
`result_preview = resultPreview?.slice(0, 500) || ''`. -/
structure LogRow where
  analysisType : JSVal
  filters : JSVal
  resultPreview : String
  succeeded : Bool
  errorMessage : Option String
deriving Repr

/-- Build the row `logAnalysis` inserts (index.js lines 175-189). -/
def logAnalysisEntry (analysisType filters : JSVal) (resultPreview : Option String)
    (succeeded : Bool) (errorMessage : Option String) : LogRow :=
  ⟨analysisType, filters, (resultPreview.getD "").take 500, succeeded, errorMessage⟩

/-- The destructuring base `req.body || {}`. -/
def bodyObj (body : JSVal) : JSVal := jsOr body (.obj [])

/-- The destructured `salesData` of the request body. -/
def salesDataOf (body : JSVal) : JSVal := jsField (bodyObj body) "salesData"

/-- The destructured `analysisType`, with the destructuring default
`'trends'` applying exactly when the property is `undefined`. -/
def analysisTypeOf (body : JSVal) : JSVal :=
  match jsField (bodyObj body) "analysisType" with
  | .undefined => .str "trends"
  | v => v

/-- The destructured `filters`, defaulting to `{}` exactly when the
property is `undefined`. -/
def filtersOf (body : JSVal) : JSVal :=
  match jsField (bodyObj body) "filters" with
  | .undefined => .obj []
  | v => v

/-- The `/api/analyze` handler body with no AI client configured
(index.js lines 236-258): falsy `salesData` answers 400 with no
normalization and no log invocation; otherwise the payload is
normalized (which can throw), the local summary computed, one
successful log invocation performed, and a 503 response carrying both
the explanatory error and the summary is sent. -/
def analyzePostNoAI (parse : String → Option JSVal) (stringify : JSVal → String)
    (body : JSVal) : Except String (HttpResponse × List LogRow) :=
  if (salesDataOf body).truthy = false then
    .ok (⟨400, some "Missing salesData payload.", none⟩, [])
  else
    match normalizeRecords parse stringify (salesDataOf body) with
    | .error e => .error e
    | .ok nr =>
      let summary := summarizeLocally nr.records (filtersOf body)
      .ok (⟨503, some "AI provider is not configured. Add OPENAI_API_KEY to enable insights.",
          some summary⟩,
        [logAnalysisEntry (analysisTypeOf body) (filtersOf body) (some summary) true none])

/-! Concrete stand-ins for the external builtins, used when the
properties below are instantiated at concrete inputs: a parser that
fails on every string (exercising the `catch` branch) and a serializer
returning the empty string (the properties never depend on the
pretty-printed text). -/

/-- A `JSON.parse` stand-in that fails on every input. -/
def stubParse : String → Option JSVal := fun _ => none

/-- A `JSON.stringify` stand-in (the serialized text is irrelevant to
every property below). -/
def stubStringify : JSVal → String := fun _ => ""

/-! Specification-side notions used to state the properties: substring
containment for prompts, and first-occurrence deduplication on strings
(the value type actually flowing through `formatContexts`). -/

/-- A text contains a sentence: it splits as `pre ++ sentence ++ post`. -/
def containsSent (t sentence : String) : Prop := ∃ pre post, t = pre ++ sentence ++ post

/-- Executable check that `needle` occurs as a contiguous run inside a
character list (used to decide `containsSent` on concrete strings, in
particular to establish that a sentence does NOT occur). -/
def hasRun (needle : List Char) : List Char → Bool
  | [] => needle.isEmpty
  | c :: rest => needle.isPrefixOf (c :: rest) || hasRun needle rest

/-- First-occurrence deduplication of strings, carrying the set of
values already seen. -/
def dedupStrAux (seen : List String) : List String → List String
  | [] => []
  | x :: xs =>
    if seen.any (fun y => y == x) then dedupStrAux seen xs
    else x :: dedupStrAux (x :: seen) xs

/-- First-occurrence deduplication of a string list (the order-preserving
reading of `Array.from(new Set(...))`). -/
def dedupFirst (l : List String) : List String := dedupStrAux [] l

/-- What "deduplicated, keeping non-empty values, first occurrence
first" means for one projected column: `out` has no duplicates, holds
exactly the non-empty values of `src`, and lists them in the order of
their first occurrences in `src`. -/
def dedupSpec (src out : List String) : Prop :=
  out.Nodup ∧ (∀ a, a ∈ out ↔ (a ≠ "" ∧ a ∈ src)) ∧
  out.Pairwise (fun a b => src.indexOf a < src.indexOf b)

/-! Helper lemmas about the normalizer. -/

/-- The mapped-then-filtered records are exactly the `keptRecord`
contributions of the input elements, whenever the mapping pass
succeeded. -/
theorem recordsOfItems_ok_filter (items : List JSVal) (rs : List SalesRecord)
    (h : recordsOfItems items = .ok rs) :
    rs.filter (fun r => !(r.amount.isNaN)) = items.filterMap keptRecord := by
  induction items generalizing rs with
  | nil =>
    simp only [recordsOfItems, Except.ok.injEq] at h
    subst h
    rfl
  | cons item items ih =>
    cases hr : recordOf item with
    | error e => simp [recordsOfItems, hr] at h
    | ok r =>
      cases hrest : recordsOfItems items with
      | error e => simp [recordsOfItems, hr, hrest] at h
      | ok rs2 =>
        simp only [recordsOfItems, hr, hrest, Except.ok.injEq] at h
        subst h
        cases hn : r.amount.isNaN with
        | true =>
          simp [List.filter_cons, List.filterMap_cons, hn, keptRecord, hr, ih rs2 hrest]
        | false =>
          simp [List.filter_cons, List.filterMap_cons, hn, keptRecord, hr, ih rs2 hrest]

/-- The mapping pass succeeds when no element is nullish. -/
theorem recordsOfItems_ok_of_no_nullish (items : List JSVal)
    (h : items.all (fun v => !(v.nullish)) = true) :
    ∃ rs, recordsOfItems items = .ok rs := by
  induction items with
  | nil => exact ⟨[], rfl⟩
  | cons item items ih =>
    simp only [List.all_cons, Bool.and_eq_true, Bool.not_eq_eq_eq_not, Bool.not_true] at h
    obtain ⟨rs, hrs⟩ := ih (by simpa using h.2)
    cases hro : recordOf item with
    | error e => simp [recordOf, h.1] at hro
    | ok r => exact ⟨r :: rs, by simp [recordsOfItems, hro, hrs]⟩

/-- Every record contributed by `keptRecord` has a non-`NaN` amount. -/
theorem filterMap_kept_not_nan (items : List JSVal) :
    ((items.filterMap keptRecord).all (fun r => !(r.amount.isNaN))) = true := by
  induction items with
  | nil => rfl
  | cons item items ih =>
    rw [List.filterMap_cons]
    cases hk : keptRecord item with
    | none => exact ih
    | some r =>
      have hnan : r.amount.isNaN = false := by
        unfold keptRecord at hk
        cases hr : recordOf item with
        | error e => simp [hr] at hk
        | ok r0 =>
          rw [hr] at hk
          cases hn : r0.amount.isNaN with
          | true => simp [hn] at hk
          | false =>
            simp only [hn, if_neg Bool.false_ne_true, Option.some.injEq] at hk
            subst hk
            exact hn
      simp [List.all_cons, hnan, ih]

/-- Falsy input leaves `raw` at the empty string. -/
theorem rawOf_falsy (stringify : JSVal → String) (data : JSVal)
    (h : data.truthy = false) : rawOf stringify data = "" := by
  cases data with
  | str s =>
    simp only [JSVal.truthy, decide_eq_false_iff_not, not_not] at h
    simp [rawOf, h]
  | arr elems => simp [JSVal.truthy] at h
  | obj fields => simp [JSVal.truthy] at h
  | _ => rfl

/-- For truthy input, the element list is read off the parsed value. -/
theorem parsedElems_truthy (parse : String → Option JSVal) (data : JSVal)
    (ht : data.truthy = true) :
    parsedElems parse data =
      (match parsedOf parse data with | .arr elems => elems | _ => []) := by
  unfold parsedElems
  rw [ht]
  simp

/-- Characterization of a successful normalization: the canonical list
is exactly the `keptRecord`-image of the parsed elements. -/
theorem normalizeRecords_ok_records_eq (parse : String → Option JSVal)
    (stringify : JSVal → String) (data : JSVal) (res : NormResult)
    (h : normalizeRecords parse stringify data = .ok res) :
    res.records = (parsedElems parse data).filterMap keptRecord := by
  unfold normalizeRecords at h
  split at h
  next hcond =>
    simp only [Except.ok.injEq] at h
    subst h
    simp [parsedElems, hcond]
  next hcond =>
    have ht : data.truthy = true := by
      cases hv : data.truthy with
      | false => exact absurd hv hcond
      | true => rfl
    rw [parsedElems_truthy parse data ht]
    split at h
    next items heq =>
      split at h
      next e hrs => exact absurd h (by simp)
      next rs hrs =>
        simp only [Except.ok.injEq] at h
        subst h
        exact recordsOfItems_ok_filter items rs hrs
    next other hne =>
      simp only [Except.ok.injEq] at h
      subst h
      simp

/-- Claim C2, as amended: `normalizeRecords` throws no exception and
returns a `{ raw, records }` result for every input whose parsed
element list contains no nullish value — in particular every parse
failure degrades to the empty record list (the `filterMap` of an empty
element list).  The claim's original unconditional form is refuted by
`normalizeRecords_throws_on_null_element`: an array containing `null`
makes the element mapping throw a `TypeError`. -/
theorem normalizeRecords_total_without_nullish (parse : String → Option JSVal)
    (stringify : JSVal → String) (data : JSVal)
    (h : (parsedElems parse data).all (fun v => !(v.nullish)) = true) :
    normalizeRecords parse stringify data =
      .ok ⟨rawOf stringify data, (parsedElems parse data).filterMap keptRecord⟩ := by
  cases ht : data.truthy with
  | false =>
    have hraw := rawOf_falsy stringify data ht
    unfold normalizeRecords
    rw [ht, hraw]
    have hpe : parsedElems parse data = [] := by
      unfold parsedElems
      rw [ht]
      simp
    rw [hpe]
    simp
  | true =>
    rw [parsedElems_truthy parse data ht] at h ⊢
    unfold normalizeRecords
    split
    next hcond => rw [hcond] at ht; exact absurd ht (by simp)
    next hcond =>
      split
      next items heq =>
        rw [heq] at h
        obtain ⟨rs, hrs⟩ := recordsOfItems_ok_of_no_nullish items h
        simp only [hrs]
        rw [recordsOfItems_ok_filter items rs hrs]
      next other hne => simp

set_option maxRecDepth 100000

/-- Claim C2, witness: a string that fails to parse normalizes to its
raw text with an empty record list, throwing nothing. -/
theorem normalizeRecords_total_without_nullish_instance :
    normalizeRecords stubParse stubStringify (.str "not json") = .ok ⟨"not json", []⟩ :=
  normalizeRecords_total_without_nullish stubParse stubStringify (.str "not json") rfl

/-- Claim C2, counterexample to the unconditional claim: the array
`[null]` is a valid input value, yet `normalizeRecords` throws a
`TypeError` (from `item.customer` on `null`) instead of returning a
`{ raw, records }` result. -/
theorem normalizeRecords_throws_on_null_element :
    normalizeRecords stubParse stubStringify (.arr [.null]) = .error "TypeError" := rfl

/-- Claim C1, as amended: for every input accepted by
`normalizeRecords`, the record list is exactly the per-element
`keptRecord` contribution — an element is excluded if and only if its
coerced amount is `NaN` (so every output amount is non-`NaN`); an
element whose amount-bearing fields are all absent or falsy coerces via
the default `0` and is therefore KEPT with amount `0`, which the
original claim denied (see `normalizeRecords_keeps_zero_amount_element`). -/
theorem normalizeRecords_records_characterization (parse : String → Option JSVal)
    (stringify : JSVal → String) (data : JSVal) (res : NormResult)
    (h : normalizeRecords parse stringify data = .ok res) :
    res.records = (parsedElems parse data).filterMap keptRecord ∧
    res.records.all (fun r => !(r.amount.isNaN)) = true := by
  have he := normalizeRecords_ok_records_eq parse stringify data res h
  refine ⟨he, ?_⟩
  rw [he]
  exact filterMap_kept_not_nan _

/-- Claim C1, witness: a two-element array where the first element has
a numeric amount and the second a non-numeric (`NaN`-coercing) one; the
second is excluded, the first kept. -/
theorem normalizeRecords_records_characterization_instance :
    ([⟨.str "Unknown Customer", .str "Unknown Brand", .str "Unspecified", .str "unspecified",
        .fin ⟨5, 1⟩, .str ""⟩] : List SalesRecord) =
      (parsedElems stubParse
        (.arr [.obj [("amount", .num (.fin ⟨5, 1⟩))], .obj [("amount", .str "abc")]])).filterMap
        keptRecord ∧
    ([⟨.str "Unknown Customer", .str "Unknown Brand", .str "Unspecified", .str "unspecified",
        .fin ⟨5, 1⟩, .str ""⟩] : List SalesRecord).all (fun r => !(r.amount.isNaN)) = true :=
  normalizeRecords_records_characterization stubParse stubStringify
    (.arr [.obj [("amount", .num (.fin ⟨5, 1⟩))], .obj [("amount", .str "abc")]])
    ⟨"", [⟨.str "Unknown Customer", .str "Unknown Brand", .str "Unspecified", .str "unspecified",
        .fin ⟨5, 1⟩, .str ""⟩]⟩ rfl

/-- Claim C1, counterexample to the exclusion clause as stated: an
element whose amount-bearing fields are all absent is NOT excluded —
it is kept with amount `0` (`Number(undefined || ... || 0) = 0`). -/
theorem normalizeRecords_keeps_zero_amount_element :
    (normalizeRecords stubParse stubStringify (.arr [.obj [("customer", .str "X")]])).map
      (fun res => res.records.map (fun r => r.amount)) = .ok [.fin 0] := rfl

/-- Claim C3, as amended: every record in a successfully produced
canonical list has a non-`NaN` amount (no record whose amount coerces
to `NaN` appears), but the finiteness half of the original claim is
false: `Infinity` amounts pass the `!Number.isNaN` filter (see
`normalizeRecords_keeps_infinite_amount`). -/
theorem normalizeRecords_amounts_not_nan (parse : String → Option JSVal)
    (stringify : JSVal → String) (data : JSVal) (res : NormResult)
    (h : normalizeRecords parse stringify data = .ok res) :
    res.records.all (fun r => !(r.amount.isNaN)) = true := by
  rw [normalizeRecords_ok_records_eq parse stringify data res h]
  exact filterMap_kept_not_nan _

/-- Claim C3, witness: a record with a numeric `revenue` field survives
normalization with its non-`NaN` amount. -/
theorem normalizeRecords_amounts_not_nan_instance :
    ([⟨.str "Unknown Customer", .str "Unknown Brand", .str "Unspecified", .str "unspecified",
        .fin ⟨7, 1⟩, .str ""⟩] : List SalesRecord).all (fun r => !(r.amount.isNaN)) = true :=
  normalizeRecords_amounts_not_nan stubParse stubStringify
    (.arr [.obj [("revenue", .num (.fin ⟨7, 1⟩))]])
    ⟨"", [⟨.str "Unknown Customer", .str "Unknown Brand", .str "Unspecified", .str "unspecified",
        .fin ⟨7, 1⟩, .str ""⟩]⟩ rfl

/-- Claim C3, counterexample to the finiteness clause: the JSON-encodable
input `{"amount": "Infinity"}` coerces to the non-finite amount
`Infinity`, which is not `NaN` and is therefore kept in the canonical
list. -/
theorem normalizeRecords_keeps_infinite_amount :
    (normalizeRecords stubParse stubStringify (.obj [("amount", .str "Infinity")])).map
      (fun res => res.records.map (fun r => r.amount)) = .ok [.inf]
    ∧ JSNum.inf.isFinite = false := ⟨rfl, rfl⟩

/-- Claim C4 (confirmed): normalizing the two-record example
`[{customer:"X", amount:100}, {customer:"Y", amount:300}]` and
summarizing it with empty filters yields exactly the message stating the
total pipeline value `$400` and the top customers `Y: $300; X: $100`
(ranked by summed amount descending, thousands-separated dollars). -/
theorem summarizeLocally_example_total_and_top :
    (normalizeRecords stubParse stubStringify
      (.arr [.obj [("customer", .str "X"), ("amount", .num (.fin ⟨100, 1⟩))],
             .obj [("customer", .str "Y"), ("amount", .num (.fin ⟨300, 1⟩))]])).map
      (fun res => summarizeLocally res.records (.obj []))
    = .ok "AI provider is not configured. Showing a quick local summary instead. No filters applied. Total pipeline value: $400. Top customers: Y: $300; X: $100. Top brands: Unknown Brand: $400. Top seasons/periods: Unspecified: $400."
    := rfl

/-- Claim C5 (confirmed): on an empty record list the Local Summarizer
returns exactly the fixed sentence, whatever the filters argument is
(the early return never inspects it). -/
theorem summarizeLocally_empty_fixed_message (filters : JSVal) :
    summarizeLocally [] filters = "No structured sales records were provided to summarize." :=
  rfl

/-- Claim C7 (confirmed): a request whose `salesData` is missing or
falsy is answered with the 400 client error carrying the fixed message;
the result is produced before any normalization or summary code runs
and the audit-log invocation list is empty. -/
theorem analyzePost_missing_salesdata_400_no_log (parse : String → Option JSVal)
    (stringify : JSVal → String) (body : JSVal)
    (h : (salesDataOf body).truthy = false) :
    analyzePostNoAI parse stringify body =
      .ok (⟨400, some "Missing salesData payload.", none⟩, []) := by
  unfold analyzePostNoAI
  rw [h]
  simp

/-- Claim C7, witness: the empty request body has `undefined`
`salesData`, which is falsy. -/
theorem analyzePost_missing_salesdata_400_no_log_instance :
    analyzePostNoAI stubParse stubStringify (.obj []) =
      .ok (⟨400, some "Missing salesData payload.", none⟩, []) :=
  analyzePost_missing_salesdata_400_no_log stubParse stubStringify (.obj []) rfl

/-- A separator-join of a list with a non-empty head is non-empty. -/
theorem joinSep_cons_ne_empty (sep x : String) (l : List String) (hx : x ≠ "") :
    joinSep sep (x :: l) ≠ "" := by
  cases l with
  | nil => simpa [joinSep] using hx
  | cons y ys =>
    intro hcontra
    simp only [joinSep] at hcontra
    have h2 := congrArg String.data hcontra
    simp only [String.data_append, List.append_eq_nil] at h2
    exact hx (String.ext_iff.mpr h2.1.1)

/-- The local summary is never the empty string: the empty-record branch
returns a fixed sentence and every other branch starts with the literal
provider notice. -/
theorem summarizeLocally_ne_empty (records : List SalesRecord) (filters : JSVal) :
    summarizeLocally records filters ≠ "" := by
  cases records with
  | nil =>
    exact (by decide : "No structured sales records were provided to summarize." ≠ "")
  | cons r rs =>
    exact joinSep_cons_ne_empty " "
      "AI provider is not configured. Showing a quick local summary instead." _ (by decide)

/-- Claim C6, as amended: whenever `salesData` is truthy and its
normalization does not throw (see
`analyzePost_noai_throws_on_null_element` for the exception the
original unconditional claim misses), the no-AI handler responds 503
with both the fixed explanatory error and the non-empty local summary
of the normalized records under the request's filters as `data`, and
performs exactly one audit-log invocation marked succeeded whose
preview is that summary (truncated to 500 characters). -/
theorem analyzePost_noai_503_with_summary_and_log (parse : String → Option JSVal)
    (stringify : JSVal → String) (body : JSVal) (nr : NormResult)
    (h1 : (salesDataOf body).truthy = true)
    (h2 : normalizeRecords parse stringify (salesDataOf body) = .ok nr) :
    analyzePostNoAI parse stringify body =
      .ok (⟨503, some "AI provider is not configured. Add OPENAI_API_KEY to enable insights.",
          some (summarizeLocally nr.records (filtersOf body))⟩,
        [logAnalysisEntry (analysisTypeOf body) (filtersOf body)
          (some (summarizeLocally nr.records (filtersOf body))) true none])
    ∧ summarizeLocally nr.records (filtersOf body) ≠ "" := by
  constructor
  · unfold analyzePostNoAI
    rw [h1, h2]
    simp
  · exact summarizeLocally_ne_empty _ _

/-- Claim C6, witness: a truthy but unparseable `salesData` string gets
the 503 response with the (non-empty) no-records summary and one
succeeded log invocation previewing it. -/
theorem analyzePost_noai_503_instance :
    analyzePostNoAI stubParse stubStringify (.obj [("salesData", .str "[not-json")]) =
      .ok (⟨503, some "AI provider is not configured. Add OPENAI_API_KEY to enable insights.",
          some "No structured sales records were provided to summarize."⟩,
        [logAnalysisEntry (.str "trends") (.obj [])
          (some "No structured sales records were provided to summarize.") true none])
    ∧ "No structured sales records were provided to summarize." ≠ "" :=
  analyzePost_noai_503_with_summary_and_log stubParse stubStringify
    (.obj [("salesData", .str "[not-json")]) ⟨"[not-json", []⟩ rfl rfl

/-- Claim C6, counterexample to the unconditional claim: the body
`{"salesData": [null]}` carries a truthy `salesData`, yet the handler
throws the normalization `TypeError` instead of responding 503 and
logging. -/
theorem analyzePost_noai_throws_on_null_element :
    (salesDataOf (.obj [("salesData", .arr [.null])])).truthy = true
    ∧ analyzePostNoAI stubParse stubStringify (.obj [("salesData", .arr [.null])]) =
        .error "TypeError" :=
  ⟨rfl, rfl⟩

/-- Claim C8, as amended: for every raw text and filters, the prompt
built for analysis type `"pipeline"` contains the pipeline-specific
focus sentence, and the prompt built for any analysis type whose
property key is neither one of the three mapping keys nor an inherited
`Object.prototype` member contains the generic fallback sentence
(`undefined`, from a missing type, stringifies to such a key);
`buildPrompt` is a pure function of its arguments by construction.
For unrecognized types that DO name an inherited member the fallback
does not fire — see `buildPrompt_inherited_member_no_fallback`, which
refutes the claim's original universal fallback clause. -/
theorem buildPrompt_focus_selection (raw : String) (analysisType filters : JSVal)
    (h : focusList.lookup (jsToString analysisType) = none)
    (hp : objectProtoMembers.lookup (jsToString analysisType) = none) :
    containsSent (buildPrompt raw (.str "pipeline") filters)
      "Predict pipeline milestones, risks, and likely close timelines with confidence levels."
    ∧ containsSent (buildPrompt raw analysisType filters) "General sales insights." := by
  have hf : focusFor analysisType = "General sales insights." := by
    unfold focusFor
    simp [h, hp]
  constructor
  · exact ⟨"You are a senior sales operations analyst. Use the sales data below to summarize insights.\n\nContext filters: "
        ++ (if filterSummaryStr "; " filters == "" then "none provided"
            else filterSummaryStr "; " filters)
        ++ "\nRequired focuses: ",
      "\n\nDeliver three sections:\n1) Trend Highlights (bullets)\n2) Pipeline Outlook (probable milestones, risks, next best actions)\n3) Draft Communications (short, actionable notes for stakeholders)\n\nUse concise bullets and include numeric references when available. If data is sparse, state assumptions.",
      rfl⟩
  · refine ⟨"You are a senior sales operations analyst. Use the sales data below to summarize insights.\n\nContext filters: "
        ++ (if filterSummaryStr "; " filters == "" then "none provided"
            else filterSummaryStr "; " filters)
        ++ "\nRequired focuses: ",
      "\n\nDeliver three sections:\n1) Trend Highlights (bullets)\n2) Pipeline Outlook (probable milestones, risks, next best actions)\n3) Draft Communications (short, actionable notes for stakeholders)\n\nUse concise bullets and include numeric references when available. If data is sparse, state assumptions.",
      ?_⟩
    simp only [buildPrompt]
    rw [hf]

/-- Claim C8, witness: instantiated at the unrecognized analysis type
`"forecast"`, whose key is absent from the focus mapping and names no
inherited `Object.prototype` member. -/
theorem buildPrompt_focus_selection_instance :
    containsSent (buildPrompt "" (.str "pipeline") (.obj []))
      "Predict pipeline milestones, risks, and likely close timelines with confidence levels."
    ∧ containsSent (buildPrompt "" (.str "forecast") (.obj [])) "General sales insights." :=
  buildPrompt_focus_selection "" (.str "forecast") (.obj []) rfl rfl

/-- Claim C10 (confirmed): the amount aliases are selected by
truthiness, not presence.  If the `amount` field is falsy (for example
`0`) and `value` holds a truthy number `n`, the normalized amount is
`n`, not `0`; and if all four amount-bearing fields are falsy or
absent, the chain falls through to the literal `0`. -/
theorem recordOf_amount_alias_truthiness (item : JSVal) (n : JSNum)
    (h0 : item.nullish = false) :
    ((jsField item "amount").truthy = false → jsField item "value" = .num n →
      n.truthy = true → (recordOf item).map (fun r => r.amount) = .ok n)
    ∧ ((jsField item "amount").truthy = false → (jsField item "value").truthy = false →
      (jsField item "revenue").truthy = false → (jsField item "total").truthy = false →
      (recordOf item).map (fun r => r.amount) = .ok (.fin 0)) := by
  have htn : ∀ m : JSNum, (JSVal.num m).truthy = m.truthy := fun _ => rfl
  constructor
  · intro ha hv hn
    unfold recordOf
    rw [h0]
    simp [Except.map, jsOr, ha, hv, htn, hn, jsToNumber]
  · intro ha hv hr ht
    unfold recordOf
    rw [h0]
    simp [Except.map, jsOr, ha, hv, hr, ht, jsToNumber]

/-- Claim C10, witness: `{amount: 0, value: 250}` normalizes to amount
`250` (not `0`), and `{customer: "Z"}` — no truthy amount-bearing field
— normalizes to amount `0`. -/
theorem recordOf_amount_alias_truthiness_instance :
    (recordOf (.obj [("amount", .num (.fin ⟨0, 1⟩)), ("value", .num (.fin ⟨250, 1⟩))])).map
      (fun r => r.amount) = .ok (.fin ⟨250, 1⟩)
    ∧ (recordOf (.obj [("customer", .str "Z")])).map (fun r => r.amount) = .ok (.fin 0) :=
  ⟨(recordOf_amount_alias_truthiness
      (.obj [("amount", .num (.fin ⟨0, 1⟩)), ("value", .num (.fin ⟨250, 1⟩))])
      (.fin ⟨250, 1⟩) rfl).1 rfl rfl rfl,
   (recordOf_amount_alias_truthiness (.obj [("customer", .str "Z")]) .nan rfl).2
      rfl rfl rfl rfl⟩

/-! Helper lemmas for the Context Formatter: first-occurrence
deduplication on strings and its transfer to the `JSVal` level. -/

/-- Membership in the seen-set test. -/
theorem any_beq_iff_mem (seen : List String) (x : String) :
    (seen.any (fun y => y == x)) = true ↔ x ∈ seen := by
  constructor
  · intro h
    obtain ⟨y, hy, he⟩ := List.any_eq_true.1 h
    exact (eq_of_beq he) ▸ hy
  · intro h
    exact List.any_eq_true.2 ⟨x, h, beq_self_eq_true x⟩

/-- Membership in the deduplicated list: exactly the values of the
input that were not already seen. -/
theorem mem_dedupStrAux (seen l : List String) (a : String) :
    a ∈ dedupStrAux seen l ↔ (a ∈ l ∧ a ∉ seen) := by
  induction l generalizing seen with
  | nil => simp [dedupStrAux]
  | cons x xs ih =>
    by_cases hx : (seen.any (fun y => y == x)) = true
    · have hxs : x ∈ seen := (any_beq_iff_mem seen x).1 hx
      simp only [dedupStrAux, if_pos hx, ih, List.mem_cons]
      constructor
      · rintro ⟨h1, h2⟩
        exact ⟨Or.inr h1, h2⟩
      · rintro ⟨h1, h2⟩
        cases h1 with
        | inl he => exact absurd (he ▸ hxs) h2
        | inr hi => exact ⟨hi, h2⟩
    · have hxs : x ∉ seen := fun hm => hx ((any_beq_iff_mem seen x).2 hm)
      simp only [dedupStrAux, if_neg hx, List.mem_cons, ih]
      constructor
      · rintro (he | ⟨h1, h2⟩)
        · subst he
          exact ⟨Or.inl rfl, hxs⟩
        · simp only [List.mem_cons, not_or] at h2
          exact ⟨Or.inr h1, h2.2⟩
      · rintro ⟨h1, h2⟩
        by_cases hax : a = x
        · exact Or.inl hax
        · cases h1 with
          | inl he => exact absurd he hax
          | inr hi =>
            refine Or.inr ⟨hi, ?_⟩
            simp only [List.mem_cons, not_or]
            exact ⟨hax, h2⟩

/-- The deduplicated list has no duplicates. -/
theorem nodup_dedupStrAux (seen l : List String) : (dedupStrAux seen l).Nodup := by
  induction l generalizing seen with
  | nil => simp [dedupStrAux]
  | cons x xs ih =>
    by_cases hx : (seen.any (fun y => y == x)) = true
    · simpa only [dedupStrAux, if_pos hx] using ih seen
    · simp only [dedupStrAux, if_neg hx, List.nodup_cons]
      refine ⟨?_, ih (x :: seen)⟩
      intro hmem
      exact ((mem_dedupStrAux _ _ _).1 hmem).2 (List.mem_cons_self x seen)

/-- The deduplicated list is ordered by first occurrence in the input. -/
theorem pairwise_dedupStrAux (seen l : List String) :
    (dedupStrAux seen l).Pairwise (fun a b => l.indexOf a < l.indexOf b) := by
  induction l generalizing seen with
  | nil => simp [dedupStrAux]
  | cons x xs ih =>
    by_cases hx : (seen.any (fun y => y == x)) = true
    · have hxseen : x ∈ seen := (any_beq_iff_mem seen x).1 hx
      simp only [dedupStrAux, if_pos hx]
      refine (ih seen).imp_of_mem ?_
      intro a b ha hb hlt
      have hax : a ≠ x := fun he => ((mem_dedupStrAux _ _ _).1 ha).2 (he ▸ hxseen)
      have hbx : b ≠ x := fun he => ((mem_dedupStrAux _ _ _).1 hb).2 (he ▸ hxseen)
      rw [List.indexOf_cons_ne _ (Ne.symm hax), List.indexOf_cons_ne _ (Ne.symm hbx)]
      exact Nat.succ_lt_succ hlt
    · simp only [dedupStrAux, if_neg hx]
      refine List.Pairwise.cons ?_ ?_
      · intro b hb
        have hmem := (mem_dedupStrAux _ _ _).1 hb
        have hbx : b ≠ x := fun he => hmem.2 (he ▸ List.mem_cons_self x seen)
        rw [List.indexOf_cons_self, List.indexOf_cons_ne _ (Ne.symm hbx)]
        exact Nat.succ_pos _
      · refine (ih (x :: seen)).imp_of_mem ?_
        intro a b ha hb hlt
        have hax : a ≠ x := fun he =>
          ((mem_dedupStrAux _ _ _).1 ha).2 (he ▸ List.mem_cons_self x seen)
        have hbx : b ≠ x := fun he =>
          ((mem_dedupStrAux _ _ _).1 hb).2 (he ▸ List.mem_cons_self x seen)
        rw [List.indexOf_cons_ne _ (Ne.symm hax), List.indexOf_cons_ne _ (Ne.symm hbx)]
        exact Nat.succ_lt_succ hlt

/-- Removing elements by a filter preserves the relative order of the
survivors' first occurrences. -/
theorem indexOf_filter_lt (p : String → Bool) (l : List String) (a b : String)
    (ha : a ∈ l.filter p) (hb : b ∈ l.filter p)
    (hlt : (l.filter p).indexOf a < (l.filter p).indexOf b) :
    l.indexOf a < l.indexOf b := by
  induction l with
  | nil => simp at ha
  | cons y ys ih =>
    by_cases hp : p y = true
    · rw [List.filter_cons_of_pos hp] at ha hb hlt
      by_cases hay : a = y
      · subst hay
        have hba : b ≠ a := by
          intro he
          subst he
          rw [List.indexOf_cons_self] at hlt
          exact absurd hlt (Nat.not_lt_zero _)
        rw [List.indexOf_cons_self, List.indexOf_cons_ne _ (Ne.symm hba)]
        exact Nat.succ_pos _
      · have hby : b ≠ y := by
          intro he
          subst he
          rw [List.indexOf_cons_self] at hlt
          exact absurd hlt (Nat.not_lt_zero _)
        rw [List.indexOf_cons_ne _ (Ne.symm hay), List.indexOf_cons_ne _ (Ne.symm hby)] at hlt
        have ha' : a ∈ ys.filter p := by
          rcases List.mem_cons.1 ha with he | hm
          exacts [absurd he hay, hm]
        have hb' : b ∈ ys.filter p := by
          rcases List.mem_cons.1 hb with he | hm
          exacts [absurd he hby, hm]
        rw [List.indexOf_cons_ne _ (Ne.symm hay), List.indexOf_cons_ne _ (Ne.symm hby)]
        exact Nat.succ_lt_succ (ih ha' hb' (Nat.lt_of_succ_lt_succ hlt))
    · rw [List.filter_cons_of_neg (by simpa using hp)] at ha hb hlt
      have hay : a ≠ y := by
        intro he
        subst he
        exact hp (List.mem_filter.1 ha).2
      have hby : b ≠ y := by
        intro he
        subst he
        exact hp (List.mem_filter.1 hb).2
      rw [List.indexOf_cons_ne _ (Ne.symm hay), List.indexOf_cons_ne _ (Ne.symm hby)]
      exact Nat.succ_lt_succ (ih ha hb hlt)

/-- First-occurrence deduplication of the non-empty values of a source
column satisfies the column specification. -/
theorem dedupSpec_dedupFirst (src : List String) :
    dedupSpec src (dedupFirst (src.filter (fun s => decide (s ≠ "")))) := by
  refine ⟨nodup_dedupStrAux _ _, ?_, ?_⟩
  · intro a
    unfold dedupFirst
    rw [mem_dedupStrAux]
    simp [List.mem_filter, and_comm]
  · have hp := pairwise_dedupStrAux [] (src.filter (fun s => decide (s ≠ "")))
    refine hp.imp_of_mem ?_
    intro a b ha hb hlt
    have ha' := ((mem_dedupStrAux _ _ _).1 ha).1
    have hb' := ((mem_dedupStrAux _ _ _).1 hb).1
    exact indexOf_filter_lt _ src a b ha' hb' hlt

/-- On string columns the truthiness filter is exactly the non-empty
filter. -/
theorem filter_truthy_map_str (l : List String) :
    (l.map JSVal.str).filter JSVal.truthy =
      (l.filter (fun s => decide (s ≠ ""))).map JSVal.str := by
  rw [List.filter_map]
  have : (JSVal.truthy ∘ JSVal.str) = fun s => decide (s ≠ "") := funext fun s => rfl
  rw [this]

/-- On string columns value-level deduplication is string
deduplication. -/
theorem dedupValAux_map_str (seen l : List String) :
    dedupValAux (seen.map JSVal.str) (l.map JSVal.str) =
      (dedupStrAux seen l).map JSVal.str := by
  induction l generalizing seen with
  | nil => rfl
  | cons x xs ih =>
    simp only [List.map_cons, dedupValAux, dedupStrAux]
    have hany : ∀ zs : List String, ((zs.map JSVal.str).any (fun y => beqVal y (.str x))) =
        (zs.any (fun y => y == x)) := by
      intro zs
      induction zs with
      | nil => rfl
      | cons z zrest ihz =>
        simp only [List.map_cons, List.any_cons, ihz]
        rfl
    rw [hany seen]
    by_cases hx : (seen.any (fun y => y == x)) = true
    · rw [if_pos hx, if_pos hx]
      exact ih seen
    · rw [if_neg hx, if_neg hx, List.map_cons]
      exact congrArg (List.cons (JSVal.str x)) (ih (x :: seen))

/-- The `unique` helper on a string column: filter the empties, then
keep first occurrences. -/
theorem jsUnique_map_str (l : List String) :
    jsUnique (l.map JSVal.str) =
      (dedupFirst (l.filter (fun s => decide (s ≠ "")))).map JSVal.str := by
  unfold jsUnique dedupFirst
  rw [filter_truthy_map_str]
  exact dedupValAux_map_str [] _

/-- Claim C9 (confirmed): for every record list whose three projected
columns are strings, `formatContexts` deduplicates the customer, brand
and season values independently: each output column keeps exactly the
non-empty values, each distinct value exactly once (`Nodup`), ordered
by the position of its first occurrence in the input order. -/
theorem formatContexts_dedup_first_occurrence (rows : List JSVal)
    (cs bs ss : List String)
    (hc : mapFieldList "customer" rows = .ok (cs.map JSVal.str))
    (hb : mapFieldList "brand" rows = .ok (bs.map JSVal.str))
    (hs : mapFieldList "season" rows = .ok (ss.map JSVal.str)) :
    formatContexts rows = .ok
      ⟨(dedupFirst (cs.filter (fun s => decide (s ≠ "")))).map JSVal.str,
       (dedupFirst (bs.filter (fun s => decide (s ≠ "")))).map JSVal.str,
       (dedupFirst (ss.filter (fun s => decide (s ≠ "")))).map JSVal.str⟩
    ∧ dedupSpec cs (dedupFirst (cs.filter (fun s => decide (s ≠ ""))))
    ∧ dedupSpec bs (dedupFirst (bs.filter (fun s => decide (s ≠ ""))))
    ∧ dedupSpec ss (dedupFirst (ss.filter (fun s => decide (s ≠ "")))) := by
  refine ⟨?_, dedupSpec_dedupFirst cs, dedupSpec_dedupFirst bs, dedupSpec_dedupFirst ss⟩
  unfold formatContexts
  simp only [hc, hb, hs]
  rw [jsUnique_map_str, jsUnique_map_str, jsUnique_map_str]

/-- Claim C9, witness: two rows repeating customer `"A"`, with an empty
brand on the second row; `"A"` appears exactly once, the empty brand is
dropped, both seasons are kept in first-occurrence order. -/
theorem formatContexts_dedup_first_occurrence_instance :
    formatContexts
      [.obj [("customer", .str "A"), ("brand", .str "B1"), ("season", .str "Spring")],
       .obj [("customer", .str "A"), ("brand", .str ""), ("season", .str "Fall")]] = .ok
      ⟨[.str "A"], [.str "B1"], [.str "Spring", .str "Fall"]⟩
    ∧ dedupSpec ["A", "A"] ["A"]
    ∧ dedupSpec ["B1", ""] ["B1"]
    ∧ dedupSpec ["Spring", "Fall"] ["Spring", "Fall"] :=
  formatContexts_dedup_first_occurrence
    [.obj [("customer", .str "A"), ("brand", .str "B1"), ("season", .str "Spring")],
     .obj [("customer", .str "A"), ("brand", .str ""), ("season", .str "Fall")]]
    ["A", "A"] ["B1", ""] ["Spring", "Fall"] rfl rfl rfl

/-- Claim C5, witness: the fixed message is returned even for a
non-empty (and even non-object) filters argument. -/
theorem summarizeLocally_empty_fixed_message_instance :
    summarizeLocally [] (.obj [("customer", .str "X")]) =
      "No structured sales records were provided to summarize." :=
  summarizeLocally_empty_fixed_message (.obj [("customer", .str "X")])

/-- Correctness of the executable run check: a run occurs exactly when
the list splits around it. -/
theorem hasRun_iff (needle : List Char) :
    ∀ hay, hasRun needle hay = true ↔ ∃ p q, hay = p ++ needle ++ q := by
  intro hay
  induction hay with
  | nil =>
    simp only [hasRun, List.isEmpty_eq_true]
    constructor
    · intro h
      exact ⟨[], [], by simp [h]⟩
    · rintro ⟨p, q, hpq⟩
      rcases List.append_eq_nil.1 hpq.symm with ⟨h1, h2⟩
      exact (List.append_eq_nil.1 h1).2
  | cons c rest ih =>
    simp only [hasRun, Bool.or_eq_true, List.isPrefixOf_iff_prefix, ih]
    constructor
    · rintro (⟨t, ht⟩ | ⟨p, q, hr⟩)
      · exact ⟨[], t, by simp [ht]⟩
      · exact ⟨c :: p, q, by simp [hr]⟩
    · rintro ⟨p, q, hpq⟩
      cases p with
      | nil => exact Or.inl ⟨q, by simpa using hpq.symm⟩
      | cons p0 ps =>
        simp only [List.cons_append, List.cons.injEq] at hpq
        exact Or.inr ⟨ps, q, hpq.2⟩

/-- Sentence containment is decided by the run check on the character
lists. -/
theorem containsSent_iff (t sentence : String) :
    containsSent t sentence ↔ hasRun sentence.data t.data = true := by
  rw [hasRun_iff]
  constructor
  · rintro ⟨pre, post, h⟩
    refine ⟨pre.data, post.data, ?_⟩
    have hd := congrArg String.data h
    simp only [String.data_append] at hd
    simpa [List.append_assoc] using hd
  · rintro ⟨p, q, h⟩
    refine ⟨String.mk p, String.mk q, ?_⟩
    apply String.ext
    simp only [String.data_append]
    simpa [List.append_assoc] using h

/-- Claim C8, counterexample to the original universal fallback clause:
`"toString"` is an unrecognized analysis type (absent from the focus
mapping), yet the rendered prompt does not contain the generic fallback
sentence — the property read finds the inherited, truthy
`Object.prototype.toString` and interpolates it instead. -/
theorem buildPrompt_inherited_member_no_fallback :
    focusList.lookup (jsToString (JSVal.str "toString")) = none
    ∧ ¬ containsSent (buildPrompt "" (.str "toString") (.obj [])) "General sales insights." := by
  refine ⟨rfl, ?_⟩
  rw [containsSent_iff]
  decide
